import Mathlib

/-!
Shallow embedding of `src/plugins/llvm/llvm_binary.hpp` (the bap llvm
loader plugin).  The header normalizes ELF, Mach-O and PE/COFF object
files into one image model (entry point, segments, sections, symbols).

Machine integers are modelled as `Nat`, with an explicit `% 2^w`
exactly where the C++ performs fixed-width arithmetic or a narrowing
cast.  The LLVM `SymbolRef` / `SectionRef` accessors are modelled as
records that carry the values those accessors return; the parsing done
by the LLVM library itself is outside this repository, so object files
enter the model already split into headers, load commands, sections
and symbol records, mirroring the data the C++ code reads from the
LLVM object classes.

Failure: the C++ reports every failure through the noreturn
`llvm_binary_fail(msg)`.  The embedding turns each such call into an
`Except.error` carrying the same message, so that no partially built
image can be observed.
-/

namespace llvm_binary

/-- Error taxonomy.  Modelled from the spec: the C++ collapses all
failures into `llvm_binary_fail(message)` with no error classes, so the
three constructors and the assignment of each failure site to a class
(archive loading is `FeatureUnsupported`, a missing signature, header or
LC_MAIN is `FormatError`, an out-of-range structural index is
`DecodeError`) follow the spec's taxonomy in section 7. -/
inductive Err
  | FormatError (msg : String)
  | FeatureUnsupported (msg : String)
  | DecodeError (msg : String)
  deriving DecidableEq, Repr

/-- `sym::kind_type = SymbolRef::Type` of LLVM 3.4. -/
inductive kind_type
  | ST_Unknown
  | ST_Data
  | ST_Debug
  | ST_File
  | ST_Function
  | ST_Other
  deriving DecidableEq, Repr

/-- `seg::segment`: all address-like fields are `uint64_t` in the C++. -/
structure segment where
  name : String
  offset : Nat
  addr : Nat
  size : Nat
  is_readable : Bool
  is_writable : Bool
  is_executable : Bool
  deriving DecidableEq, Repr

/-- `sym::symbol`. -/
structure symbol where
  name : String
  kind : kind_type
  addr : Nat
  size : Nat
  deriving DecidableEq, Repr

/-- `sec::section` (capitalised because `section` is a Lean keyword). -/
structure Section where
  name : String
  addr : Nat
  size : Nat
  deriving DecidableEq, Repr

/-- The values returned by the LLVM `SymbolRef` accessors
(`getName`, `getType`, `getAddress`, `getSize`) for one symbol-table
record; for ELF the `size` is the record's explicit `st_size` field. -/
structure SymbolRef where
  name : String
  kind : kind_type
  addr : Nat
  size : Nat
  deriving DecidableEq, Repr

/-- The values returned by the LLVM `SectionRef` accessors
(`getName`, `getAddress`, `getSize`) for one section. -/
structure SectionRef where
  name : String
  addr : Nat
  size : Nat
  deriving DecidableEq, Repr

/-- `sym::make_symbol(const SymbolRef&)`: copies name, kind, address and
size out of the accessor values. -/
def make_symbol (s : SymbolRef) : symbol :=
  { name := s.name, kind := s.kind, addr := s.addr, size := s.size }

/-- `sec::make_section(const SectionRef&)`. -/
def make_section (s : SectionRef) : Section :=
  { name := s.name, addr := s.addr, size := s.size }

/-- `sec::read(const ObjectFile&)`: every section, in table order, with
no filtering. -/
def sec_read (ss : List SectionRef) : List Section :=
  ss.map make_section

/-- `img::image`, with the four collections eagerly computed. -/
structure image where
  arch : String
  entry : Nat
  segments : List segment
  symbols : List symbol
  sections : List Section
  deriving DecidableEq, Repr

/-! ## ELF -/

def PT_LOAD : Nat := 1
def PF_X : Nat := 1
def PF_W : Nat := 2
def PF_R : Nat := 4

/-- One ELF program header, as read through
`obj.getELFFile()->program_header_begin()`.  For a 32-bit ELF class the
on-disk fields are 32-bit. -/
structure Elf_Phdr where
  p_type : Nat
  p_flags : Nat
  p_offset : Nat
  p_vaddr : Nat
  p_filesz : Nat
  deriving DecidableEq, Repr

/-- An ELF object file as presented by `ELFObjectFile<ELFT>`:
entry field of the ELF header, the program-header table, the section
table (through `SectionRef` accessors) and the static and dynamic
symbol tables (through `SymbolRef` accessors). -/
structure ELFFile where
  arch : String
  e_entry : Nat
  phdrs : List Elf_Phdr
  sections : List SectionRef
  static_syms : List SymbolRef
  dynamic_syms : List SymbolRef
  deriving DecidableEq, Repr

/-- `std::setfill('0') << std::setw(2) << pos`: decimal, left-padded
with zeros to a minimum width of two. -/
def pad2 (pos : Nat) : String :=
  if pos < 10 then "0" ++ toString pos else toString pos

/-- Loop body of `seg::read(const ELFObjectFile<T>&)`: walk the
program-header table keeping the position counter `pos`, and emit a
segment for every `PT_LOAD` header. -/
def elf_seg_read_aux : Nat → List Elf_Phdr → List segment
  | _, [] => []
  | pos, p :: ps =>
    if p.p_type = PT_LOAD then
      { name := pad2 pos,
        offset := p.p_offset,
        addr := p.p_vaddr,
        size := p.p_filesz,
        is_readable := p.p_flags &&& PF_R != 0,
        is_writable := p.p_flags &&& PF_W != 0,
        is_executable := p.p_flags &&& PF_X != 0 } :: elf_seg_read_aux (pos + 1) ps
    else
      elf_seg_read_aux (pos + 1) ps

/-- `seg::read(const ELFObjectFile<T>&)`. -/
def elf_seg_read (f : ELFFile) : List segment :=
  elf_seg_read_aux 0 f.phdrs

/-- `sym::read(const ELFObjectFile<ELFT>&)`: transform the static
symbol table into the output vector, then append the dynamic symbol
table after it. -/
def elf_sym_read (f : ELFFile) : List symbol :=
  f.static_syms.map make_symbol ++ f.dynamic_syms.map make_symbol

/-- `img::image_entry(const ELFObjectFile<ELFT>&)`: the raw `e_entry`
header field. -/
def elf_image_entry (f : ELFFile) : Nat :=
  f.e_entry

/-- `img::objectfile_image` constructor, ELF instance: eagerly computes
arch, entry, segments, symbols and sections.  No step of the ELF path
calls `llvm_binary_fail`, so the result is always `Except.ok`. -/
def elf_create (f : ELFFile) : Except Err image :=
  .ok { arch := f.arch,
        entry := elf_image_entry f,
        segments := elf_seg_read f,
        symbols := elf_sym_read f,
        sections := sec_read f.sections }

/-! ## Mach-O -/

def VM_PROT_READ : Nat := 1
def VM_PROT_WRITE : Nat := 2
def VM_PROT_EXECUTE : Nat := 4

/-- The fields of a Mach-O `segment_command` / `segment_command_64`
used by `seg::make_segment`. -/
structure MachOSegCmd where
  segname : String
  fileoff : Nat
  vmaddr : Nat
  filesize : Nat
  initprot : Nat
  deriving DecidableEq, Repr

/-- One entry of the Mach-O load-command list, as classified by the
`it.C.cmd` tag the C++ switches on.  `LC_MAIN` carries the
`entry_point_command::entryoff` field; all other command kinds carry
just their raw tag. -/
inductive LoadCommand
  | LC_SEGMENT (c : MachOSegCmd)
  | LC_SEGMENT_64 (c : MachOSegCmd)
  | LC_MAIN (entryoff : Nat)
  | LC_OTHER (cmd : Nat)
  deriving DecidableEq, Repr

/-- A Mach-O object file as presented by `MachOObjectFile`: the
ordered load-command list, plus the section and symbol views the
generic `sec::read` / `sym::read` paths consume through the LLVM
accessors. -/
structure MachOFile where
  arch : String
  cmds : List LoadCommand
  sections : List SectionRef
  symbols : List SymbolRef
  deriving DecidableEq, Repr

/-- `seg::make_segment<S>(const S&)` for Mach-O segment commands:
protection booleans come from the three bits of `initprot` only. -/
def make_segment_macho (c : MachOSegCmd) : segment :=
  { name := c.segname,
    offset := c.fileoff,
    addr := c.vmaddr,
    size := c.filesize,
    is_readable := c.initprot &&& VM_PROT_READ != 0,
    is_writable := c.initprot &&& VM_PROT_WRITE != 0,
    is_executable := c.initprot &&& VM_PROT_EXECUTE != 0 }

/-- `seg::read(const MachOObjectFile&)`: one pass over the load
commands, pushing a segment for every `LC_SEGMENT_64` or `LC_SEGMENT`
command in order. -/
def macho_seg_read : List LoadCommand → List segment
  | [] => []
  | .LC_SEGMENT_64 c :: rest => make_segment_macho c :: macho_seg_read rest
  | .LC_SEGMENT c :: rest => make_segment_macho c :: macho_seg_read rest
  | _ :: rest => macho_seg_read rest

/-- The `entryoff` payload of an `LC_MAIN` command, `none` for every
other command (the predicate of the `std::find_if` in
`img::image_entry(const MachOObjectFile&)` together with the
`entry_point_command` read done on the hit). -/
def getMain : LoadCommand → Option Nat
  | .LC_MAIN entryoff => some entryoff
  | _ => none

/-- The `std::find_if` walk of `img::image_entry(const
MachOObjectFile&)`: the first `LC_MAIN` command, if any, together with
the `entry_point_command::entryoff` read off it. -/
def find_lc_main : List LoadCommand → Option Nat
  | [] => none
  | c :: rest =>
    match getMain c with
    | some entryoff => some entryoff
    | none => find_lc_main rest

/-- `img::image_entry(const MachOObjectFile&)`: `std::find_if` locates
the first `LC_MAIN` command and its `entryoff` is returned; if none
exists the call fails. -/
def macho_image_entry (cmds : List LoadCommand) : Except Err Nat :=
  match find_lc_main cmds with
  | some entryoff => .ok entryoff
  | none => .error (.FormatError "LC_MAIN not found, binary version < 10.8")

/-- `img::objectfile_image` constructor, Mach-O instance: the entry
lookup can fail, which aborts construction of the whole image. -/
def macho_create (f : MachOFile) : Except Err image :=
  match macho_image_entry f.cmds with
  | .error e => .error e
  | .ok en =>
    .ok { arch := f.arch,
          entry := en,
          segments := macho_seg_read f.cmds,
          symbols := f.symbols.map make_symbol,
          sections := sec_read f.sections }

/-! ## PE/COFF -/

def IMAGE_SCN_CNT_CODE : Nat := 0x20
def IMAGE_SCN_CNT_INITIALIZED_DATA : Nat := 0x40
def IMAGE_SCN_CNT_UNINITIALIZED_DATA : Nat := 0x80
def IMAGE_SCN_MEM_EXECUTE : Nat := 0x20000000
def IMAGE_SCN_MEM_READ : Nat := 0x40000000
def IMAGE_SCN_MEM_WRITE : Nat := 0x80000000
def IMAGE_SYM_UNDEFINED : Int := 0

/-- The fields of `llvm::object::coff_section` used by the code; each
is a 32-bit little-endian field on disk. -/
structure coff_section where
  Name : String
  VirtualAddress : Nat
  SizeOfRawData : Nat
  PointerToRawData : Nat
  Characteristics : Nat
  deriving DecidableEq, Repr

/-- One COFF symbol-table record (`obj.getCOFFSymbol`), together with
the name and type the `SymbolRef` accessors return for it.
`SectionNumber` is a signed field: 0 marks an undefined/external
symbol, -1 an absolute and -2 a debug symbol. -/
structure coff_symbol where
  name : String
  kind : kind_type
  SectionNumber : Int
  Value : Nat
  deriving DecidableEq, Repr

/-- The two optional-header fields the code reads, common to the
`pe32_header` and `pe32plus_header` layouts. -/
structure pe_header where
  ImageBase : Nat
  AddressOfEntryPoint : Nat
  deriving DecidableEq, Repr

/-- A COFF object file as presented by `COFFObjectFile`.  `is64`
models `getBytesInAddress() == 8` (PE32+ versus PE32); `hdr` is the
optional header when `getPE32Header` / `utils::getPE32PlusHeader`
succeeds, `none` when the header is absent or the PE signature check
fails. -/
structure COFFFile where
  arch : String
  is64 : Bool
  hdr : Option pe_header
  sections : List coff_section
  symbols : List coff_symbol
  deriving DecidableEq, Repr

/-- Address width in bits of the PE variant (`T = uint32_t` for PE32
and `T = uint64_t` for PE32+ in the C++ templates). -/
def addr_width (is64 : Bool) : Nat :=
  if is64 then 64 else 32

/-- `seg::make_segment<T>(T image_base, const coff_section&)`: the
`static_cast<T>` on each address-like expression truncates to the
template width `w`; in particular `s.VirtualAddress + image_base` is
computed in `T`-width arithmetic. -/
def make_segment_coff (w : Nat) (image_base : Nat) (s : coff_section) : segment :=
  { name := s.Name,
    offset := s.PointerToRawData % 2 ^ w,
    addr := (s.VirtualAddress + image_base) % 2 ^ w,
    size := s.SizeOfRawData % 2 ^ w,
    is_readable := s.Characteristics &&& IMAGE_SCN_MEM_READ != 0,
    is_writable := s.Characteristics &&& IMAGE_SCN_MEM_WRITE != 0,
    is_executable := s.Characteristics &&& IMAGE_SCN_MEM_EXECUTE != 0 }

/-- The content test of `seg::readPE`: `T c =
static_cast<T>(s->Characteristics)` followed by the three-way
disjunction on the content bits. -/
def coff_has_content (w : Nat) (s : coff_section) : Bool :=
  let c := s.Characteristics % 2 ^ w
  (c &&& IMAGE_SCN_CNT_CODE != 0) ||
  (c &&& IMAGE_SCN_CNT_INITIALIZED_DATA != 0) ||
  (c &&& IMAGE_SCN_CNT_UNINITIALIZED_DATA != 0)

/-- `seg::readPE<T>`: walk the section table in order and emit a
segment for every section holding code, initialized data or
uninitialized data. -/
def readPE (w : Nat) (image_base : Nat) : List coff_section → List segment
  | [] => []
  | s :: rest =>
    if coff_has_content w s then
      make_segment_coff w image_base s :: readPE w image_base rest
    else
      readPE w image_base rest

/-- `seg::read(const COFFObjectFile&)`: fetch the width-appropriate
optional header (failing when it is absent) and run `readPE` at that
width with its image base. -/
def coff_seg_read (f : COFFFile) : Except Err (List segment) :=
  match f.hdr with
  | none => .error (.FormatError "PE header not found")
  | some h => .ok (readPE (addr_width f.is64) h.ImageBase f.sections)

/-- `COFFObjectFile::getSection(int32_t)` of LLVM: the reserved
section numbers 0, -1, -2 resolve to no section (success with a null
pointer); a positive in-range index resolves to the 1-based entry of
the section table; anything else is a parse failure. -/
def getSection (idx : Int) (secs : List coff_section) : Except Err (Option coff_section) :=
  if idx = 0 ∨ idx = -1 ∨ idx = -2 then
    .ok none
  else if 0 < idx then
    match secs.get? (idx.toNat - 1) with
    | some s => .ok (some s)
    | none => .error (.DecodeError "invalid section number")
  else
    .error (.DecodeError "invalid section number")

/-- `(sec->VirtualAddress + sec->SizeOfRawData) - sym->Value`: every
operand is a `uint32_t`, so the whole expression is evaluated modulo
2^32 before being widened into the `uint64_t size`. -/
def u32sub (a b : Nat) : Nat :=
  (((a : Int) - (b : Int)) % (2 ^ 32 : Int)).toNat

/-- The inner loop of `sym::read(const COFFObjectFile&, uint64_t)`:
fold over the whole symbol table; every record of the same section at
a strictly greater `Value` proposes the distance `Value - sym.Value`,
and the running size keeps the minimum. -/
def infer_size (s : coff_symbol) (all : List coff_symbol) (init : Nat) : Nat :=
  all.foldl
    (fun size next =>
      if next.SectionNumber = s.SectionNumber then
        min (if next.Value > s.Value then next.Value - s.Value else size) size
      else size)
    init

/-- Outer loop of `sym::read(const COFFObjectFile&, uint64_t)`:
symbols whose `SectionNumber` is `IMAGE_SYM_UNDEFINED` are skipped
before the section lookup; a null section (absolute/debug numbers)
is skipped after it; an out-of-range number aborts the decode. -/
def coff_sym_read_aux (all : List coff_symbol) (secs : List coff_section)
    (image_base : Nat) : List coff_symbol → Except Err (List symbol)
  | [] => .ok []
  | s :: rest =>
    if s.SectionNumber = IMAGE_SYM_UNDEFINED then
      coff_sym_read_aux all secs image_base rest
    else
      match getSection s.SectionNumber secs with
      | .error e => .error e
      | .ok none => coff_sym_read_aux all secs image_base rest
      | .ok (some sec) =>
        let size := infer_size s all (u32sub (sec.VirtualAddress + sec.SizeOfRawData) s.Value)
        let addr := (sec.VirtualAddress + image_base + s.Value) % 2 ^ 64
        match coff_sym_read_aux all secs image_base rest with
        | .error e => .error e
        | .ok tl => .ok ({ name := s.name, kind := s.kind, addr := addr, size := size } :: tl)

/-- `sym::read(const COFFObjectFile&)`: fetch the optional header for
its image base, then run the size-inferring symbol walk. -/
def coff_sym_read (f : COFFFile) : Except Err (List symbol) :=
  match f.hdr with
  | none => .error (.FormatError "PE header not found")
  | some h => coff_sym_read_aux f.symbols f.sections h.ImageBase f.symbols

/-- The `SectionRef` view of a COFF section, per the LLVM 3.4
`COFFObjectFile` accessors (`getSectionName`, `getSectionAddress`,
`getSectionSize`). -/
def coffSectionRef (s : coff_section) : SectionRef :=
  { name := s.Name, addr := s.VirtualAddress, size := s.SizeOfRawData }

/-- `sec::read` applied to a COFF object: every section of the table,
unfiltered. -/
def coff_sec_read (f : COFFFile) : List Section :=
  sec_read (f.sections.map coffSectionRef)

/-- `img::image_entry(const COFFObjectFile&)`: both the PE32 and the
PE32+ branch return the optional header's `AddressOfEntryPoint`
verbatim; a missing header aborts. -/
def coff_image_entry (f : COFFFile) : Except Err Nat :=
  match f.hdr with
  | none => .error (.FormatError "PE header not found")
  | some h => .ok h.AddressOfEntryPoint

/-- `img::objectfile_image` constructor, COFF instance, in member
initialization order: entry, segments, symbols, sections; the first
failure aborts the whole construction. -/
def coff_create (f : COFFFile) : Except Err image :=
  match coff_image_entry f with
  | .error e => .error e
  | .ok en =>
    match coff_seg_read f with
    | .error e => .error e
    | .ok segs =>
      match coff_sym_read f with
      | .error e => .error e
      | .ok syms =>
        .ok { arch := f.arch,
              entry := en,
              segments := segs,
              symbols := syms,
              sections := coff_sec_read f }

/-! ## Dispatch (`img::create`) -/

/-- The result of LLVM's `createBinary` on the input buffer, already
classified the way the `isa<...>` dispatch chain of
`img::create` / `img::create_image_obj` / `img::create_image_elf`
observes it.  The archive payload is the raw member data, which the
code never inspects. -/
inductive Binary
  | archive (data : List Nat)
  | elf32le (f : ELFFile)
  | elf32be (f : ELFFile)
  | elf64le (f : ELFFile)
  | elf64be (f : ELFFile)
  | coff (f : COFFFile)
  | macho (f : MachOFile)
  | unrecognized
  deriving DecidableEq, Repr

/-- `img::create(std::unique_ptr<Binary>)`: archives fail before any
decoding; object files dispatch to the per-format image constructor;
anything else is an unrecognized binary format. -/
def create : Binary → Except Err image
  | .archive _ => .error (.FeatureUnsupported "Archive loading unimplemented")
  | .elf32le f => elf_create f
  | .elf32be f => elf_create f
  | .elf64le f => elf_create f
  | .elf64be f => elf_create f
  | .coff f => coff_create f
  | .macho f => macho_create f
  | .unrecognized => .error (.FormatError "Unrecognized binary format")

/-! ## Spec-side characterizations

Definitions in this part restate the spec's wording, to be compared
with the embedded code above. -/

/-- The segment the spec's ELF rule (one segment per loadable program
header, name the zero-padded two-digit ordinal of its table position,
fields verbatim, protection bits decoded independently) assigns to the
program header `pp.2` sitting at table position `pp.1`. -/
def elfSegOfPair (pp : Nat × Elf_Phdr) : segment :=
  { name := pad2 pp.1,
    offset := pp.2.p_offset,
    addr := pp.2.p_vaddr,
    size := pp.2.p_filesz,
    is_readable := pp.2.p_flags &&& PF_R != 0,
    is_writable := pp.2.p_flags &&& PF_W != 0,
    is_executable := pp.2.p_flags &&& PF_X != 0 }

/-- Spec-side ELF segment list: exactly the loadable program headers,
in table order, positions taken in the full table. -/
def elfSegSpec (phdrs : List Elf_Phdr) : List segment :=
  ((phdrs.enum).filter (fun pp => pp.2.p_type == PT_LOAD)).map elfSegOfPair

/-- Spec-side PE/COFF content test: the characteristics include code,
initialized data or uninitialized data. -/
def coff_content_bits (s : coff_section) : Bool :=
  (s.Characteristics &&& IMAGE_SCN_CNT_CODE != 0) ||
  (s.Characteristics &&& IMAGE_SCN_CNT_INITIALIZED_DATA != 0) ||
  (s.Characteristics &&& IMAGE_SCN_CNT_UNINITIALIZED_DATA != 0)

/-- The segment the (amended) spec rule assigns to a content-bearing
PE/COFF section: raw pointer and raw size verbatim, virtual address
the sum of relative virtual address and image base reduced to the
variant's address width, protections decoded independently from the
three memory bits. -/
def coffSegOf (w : Nat) (base : Nat) (s : coff_section) : segment :=
  { name := s.Name,
    offset := s.PointerToRawData,
    addr := (s.VirtualAddress + base) % 2 ^ w,
    size := s.SizeOfRawData,
    is_readable := s.Characteristics &&& IMAGE_SCN_MEM_READ != 0,
    is_writable := s.Characteristics &&& IMAGE_SCN_MEM_WRITE != 0,
    is_executable := s.Characteristics &&& IMAGE_SCN_MEM_EXECUTE != 0 }

/-- The (amended) spec-side inferred size of a COFF symbol: the
minimum of the distances to every same-section symbol at a strictly
greater `Value`, and of the fallback
`(VirtualAddress + SizeOfRawData) - Value` taken in 32-bit
arithmetic. -/
def specInferSize (s : coff_symbol) (all : List coff_symbol) (sec : coff_section) : Nat :=
  ((all.filter (fun n => n.SectionNumber == s.SectionNumber && s.Value < n.Value)).map
      (fun n => n.Value - s.Value)).foldl (fun a g => min g a)
    (u32sub (sec.VirtualAddress + sec.SizeOfRawData) s.Value)

/-- Spec-side COFF symbol walk: same scope as the code (undefined
symbols skipped, absolute/debug numbers skipped, out-of-range numbers
abort), with the inferred size written as `specInferSize` and the
address as section address + image base + value. -/
def coffSymSpecAux (all : List coff_symbol) (secs : List coff_section)
    (image_base : Nat) : List coff_symbol → Except Err (List symbol)
  | [] => .ok []
  | s :: rest =>
    if s.SectionNumber = IMAGE_SYM_UNDEFINED then
      coffSymSpecAux all secs image_base rest
    else
      match getSection s.SectionNumber secs with
      | .error e => .error e
      | .ok none => coffSymSpecAux all secs image_base rest
      | .ok (some sec) =>
        match coffSymSpecAux all secs image_base rest with
        | .error e => .error e
        | .ok tl =>
          .ok ({ name := s.name, kind := s.kind,
                 addr := (sec.VirtualAddress + image_base + s.Value) % 2 ^ 64,
                 size := specInferSize s all sec } :: tl)

/-- Spec-side counterpart of `sym::read(const COFFObjectFile&)`. -/
def coffSymSpecRead (f : COFFFile) : Except Err (List symbol) :=
  match f.hdr with
  | none => .error (.FormatError "PE header not found")
  | some h => coffSymSpecAux f.symbols f.sections h.ImageBase f.symbols

/-- Well-formedness of a COFF file as it sits on disk: every used
section field is a 32-bit quantity. -/
def coff_wf (f : COFFFile) : Prop :=
  ∀ s ∈ f.sections, s.VirtualAddress < 2 ^ 32 ∧ s.SizeOfRawData < 2 ^ 32 ∧
    s.PointerToRawData < 2 ^ 32 ∧ s.Characteristics < 2 ^ 32

/-- A 32-bit ELF input: every address-like source field fits in 32
bits. -/
def elf_wf32 (f : ELFFile) : Prop :=
  (∀ p ∈ f.phdrs, p.p_offset < 2 ^ 32 ∧ p.p_vaddr < 2 ^ 32 ∧ p.p_filesz < 2 ^ 32) ∧
  (∀ s ∈ f.sections, s.addr < 2 ^ 32 ∧ s.size < 2 ^ 32) ∧
  (∀ y ∈ f.static_syms ++ f.dynamic_syms, y.addr < 2 ^ 32 ∧ y.size < 2 ^ 32)

/-! ## Helper lemmas -/

theorem elf_seg_read_aux_eq (pos : Nat) (l : List Elf_Phdr) :
    elf_seg_read_aux pos l =
      ((List.enumFrom pos l).filter (fun pp => pp.2.p_type == PT_LOAD)).map elfSegOfPair := by
  induction l generalizing pos with
  | nil => rfl
  | cons p ps ih =>
    by_cases hp : p.p_type = PT_LOAD
    · simp [elf_seg_read_aux, List.enumFrom, List.filter_cons, hp, ih, elfSegOfPair]
    · simp [elf_seg_read_aux, List.enumFrom, List.filter_cons, hp, ih]

theorem elf_seg_read_eq_spec (f : ELFFile) :
    elf_seg_read f = elfSegSpec f.phdrs := by
  simpa [elf_seg_read, elfSegSpec, List.enum] using elf_seg_read_aux_eq 0 f.phdrs

theorem find_lc_main_eq_head?_filterMap (l : List LoadCommand) :
    find_lc_main l = (l.filterMap getMain).head? := by
  induction l with
  | nil => rfl
  | cons c l ih =>
    cases hg : getMain c with
    | none => simp only [find_lc_main, List.filterMap_cons, hg]; exact ih
    | some entryoff => simp only [find_lc_main, List.filterMap_cons, hg, List.head?_cons]

theorem readPE_eq_spec (w base : Nat) (hw : 32 ≤ w) (secs : List coff_section)
    (hwf : ∀ s ∈ secs, s.PointerToRawData < 2 ^ 32 ∧ s.SizeOfRawData < 2 ^ 32 ∧
      s.Characteristics < 2 ^ 32) :
    readPE w base secs = (secs.filter coff_content_bits).map (coffSegOf w base) := by
  have hpow : (2 : Nat) ^ 32 ≤ 2 ^ w := Nat.pow_le_pow_right (by norm_num) hw
  induction secs with
  | nil => rfl
  | cons s rest ih =>
    have hs := hwf s (by simp)
    have hrest : ∀ t ∈ rest, t.PointerToRawData < 2 ^ 32 ∧ t.SizeOfRawData < 2 ^ 32 ∧
        t.Characteristics < 2 ^ 32 := fun t ht => hwf t (by simp [ht])
    have hchar : s.Characteristics % 2 ^ w = s.Characteristics :=
      Nat.mod_eq_of_lt (lt_of_lt_of_le hs.2.2 hpow)
    have hcontent : coff_has_content w s = coff_content_bits s := by
      simp [coff_has_content, coff_content_bits, hchar]
    by_cases hc : coff_content_bits s
    · have hmk : make_segment_coff w base s = coffSegOf w base s := by
        simp [make_segment_coff, coffSegOf,
          Nat.mod_eq_of_lt (lt_of_lt_of_le hs.1 hpow),
          Nat.mod_eq_of_lt (lt_of_lt_of_le hs.2.1 hpow)]
      simp [readPE, hcontent, hc, List.filter_cons, hmk, ih hrest]
    · simp [readPE, hcontent, hc, List.filter_cons, ih hrest]

theorem infer_size_cons (s n : coff_symbol) (ns : List coff_symbol) (init : Nat) :
    infer_size s (n :: ns) init =
      infer_size s ns
        (if n.SectionNumber = s.SectionNumber then
          min (if n.Value > s.Value then n.Value - s.Value else init) init
        else init) := rfl

theorem infer_size_eq_spec (s : coff_symbol) (all : List coff_symbol) (init : Nat) :
    infer_size s all init =
      ((all.filter (fun n => n.SectionNumber == s.SectionNumber && s.Value < n.Value)).map
          (fun n => n.Value - s.Value)).foldl (fun a g => min g a) init := by
  induction all generalizing init with
  | nil => rfl
  | cons n ns ih =>
    rw [infer_size_cons]
    by_cases hsec : n.SectionNumber = s.SectionNumber
    · by_cases hv : s.Value < n.Value
      · rw [if_pos hsec, if_pos hv]
        simp [List.filter_cons, hsec, hv]
        exact ih (min (n.Value - s.Value) init)
      · rw [if_pos hsec, if_neg hv, Nat.min_self]
        simp [List.filter_cons, hsec, hv]
        exact ih init
    · rw [if_neg hsec]
      have hbeq : (n.SectionNumber == s.SectionNumber) = false := by
        simpa using hsec
      simp only [List.filter_cons, hbeq, Bool.false_and]
      exact ih init

theorem coff_sym_read_aux_eq_spec (all : List coff_symbol) (secs : List coff_section)
    (base : Nat) (rest : List coff_symbol) :
    coff_sym_read_aux all secs base rest = coffSymSpecAux all secs base rest := by
  induction rest with
  | nil => rfl
  | cons s rest ih =>
    simp only [coff_sym_read_aux, coffSymSpecAux]
    by_cases hu : s.SectionNumber = IMAGE_SYM_UNDEFINED
    · rw [if_pos hu, if_pos hu]
      exact ih
    · rw [if_neg hu, if_neg hu]
      cases hs : getSection s.SectionNumber secs with
      | error e => rfl
      | ok osec =>
        cases osec with
        | none => exact ih
        | some sec =>
          rw [ih]
          cases hrec : coffSymSpecAux all secs base rest with
          | error e => rfl
          | ok tl => simp [specInferSize, infer_size_eq_spec]

theorem infer_size_filter (s : coff_symbol) (hs : s.SectionNumber ≠ IMAGE_SYM_UNDEFINED)
    (all : List coff_symbol) (init : Nat) :
    infer_size s (all.filter (fun n => n.SectionNumber != IMAGE_SYM_UNDEFINED)) init =
      infer_size s all init := by
  induction all generalizing init with
  | nil => rfl
  | cons n ns ih =>
    by_cases hn : n.SectionNumber = IMAGE_SYM_UNDEFINED
    · have hne : n.SectionNumber = s.SectionNumber → False := by
        rw [hn]; exact fun h => hs h.symm
      simp only [List.filter_cons, hn]
      simp only [infer_size_cons, if_neg hne]
      simpa using ih init
    · simp only [List.filter_cons]
      have hkeep : (n.SectionNumber != IMAGE_SYM_UNDEFINED) = true := by
        simpa using hn
      rw [hkeep]
      simp only [infer_size_cons]
      exact ih _

theorem coff_sym_read_aux_filter (all : List coff_symbol) (secs : List coff_section)
    (base : Nat) (rest : List coff_symbol) :
    coff_sym_read_aux (all.filter (fun n => n.SectionNumber != IMAGE_SYM_UNDEFINED)) secs base
        (rest.filter (fun n => n.SectionNumber != IMAGE_SYM_UNDEFINED)) =
      coff_sym_read_aux all secs base rest := by
  induction rest with
  | nil => rfl
  | cons s rest ih =>
    by_cases hu : s.SectionNumber = IMAGE_SYM_UNDEFINED
    · simp only [List.filter_cons, hu]
      simp only [coff_sym_read_aux, if_pos hu]
      simpa using ih
    · have hkeep : (s.SectionNumber != IMAGE_SYM_UNDEFINED) = true := by
        simpa using hu
      simp only [List.filter_cons, hkeep]
      simp only [coff_sym_read_aux, if_neg hu]
      cases hs : getSection s.SectionNumber secs with
      | error e => rfl
      | ok osec =>
        cases osec with
        | none => exact ih
        | some sec =>
          rw [ih]
          cases hrec : coff_sym_read_aux all secs base rest with
          | error e => rfl
          | ok tl => simp [infer_size_filter s hu all]

theorem elf_seg_read_aux_mem (g : segment) (pos : Nat) (l : List Elf_Phdr)
    (hg : g ∈ elf_seg_read_aux pos l) :
    ∃ p ∈ l, g.offset = p.p_offset ∧ g.addr = p.p_vaddr ∧ g.size = p.p_filesz := by
  induction l generalizing pos with
  | nil => cases hg
  | cons p ps ih =>
    simp only [elf_seg_read_aux] at hg
    by_cases hp : p.p_type = PT_LOAD
    · rw [if_pos hp] at hg
      rcases List.mem_cons.mp hg with hEq | hg2
      · subst hEq
        exact ⟨p, List.mem_cons_self p ps, rfl, rfl, rfl⟩
      · obtain ⟨q, hq, hf⟩ := ih (pos + 1) hg2
        exact ⟨q, List.mem_cons_of_mem p hq, hf⟩
    · rw [if_neg hp] at hg
      obtain ⟨q, hq, hf⟩ := ih (pos + 1) hg
      exact ⟨q, List.mem_cons_of_mem p hq, hf⟩

theorem elf_create_ok (f : ELFFile) (img : image) (h : elf_create f = .ok img) :
    img = { arch := f.arch, entry := f.e_entry, segments := elf_seg_read f,
            symbols := elf_sym_read f, sections := sec_read f.sections } := by
  simpa [elf_create, elf_image_entry, eq_comm] using h

theorem coff_create_ok (f : COFFFile) (h : pe_header) (img : image)
    (hh : f.hdr = some h) (hc : coff_create f = .ok img) :
    ∃ syms, coff_sym_read f = .ok syms ∧
      img = { arch := f.arch, entry := h.AddressOfEntryPoint,
              segments := readPE (addr_width f.is64) h.ImageBase f.sections,
              symbols := syms, sections := coff_sec_read f } := by
  simp only [coff_create, coff_image_entry, coff_seg_read, hh] at hc
  cases hsym : coff_sym_read f with
  | error e => rw [hsym] at hc; cases hc
  | ok syms =>
    rw [hsym] at hc
    exact ⟨syms, rfl, by simpa [eq_comm] using hc⟩

/-! ## Concrete fixtures -/

/-- A small 32-bit ELF fixture: one non-loadable header followed by
two loadable ones. -/
def exElf : ELFFile :=
  { arch := "i386",
    e_entry := 0x8048000,
    phdrs := [
      { p_type := 6, p_flags := 4, p_offset := 0x34, p_vaddr := 0x8048034, p_filesz := 0xa0 },
      { p_type := 1, p_flags := 5, p_offset := 0, p_vaddr := 0x8048000, p_filesz := 0x1000 },
      { p_type := 1, p_flags := 6, p_offset := 0x1000, p_vaddr := 0x8049000, p_filesz := 0x200 } ],
    sections := [{ name := ".text", addr := 0x8048000, size := 0x1000 }],
    static_syms := [{ name := "main", kind := .ST_Function, addr := 0x8048100, size := 0x40 }],
    dynamic_syms := [{ name := "puts", kind := .ST_Function, addr := 0, size := 0 }] }

/-- The image `elf_create` builds from `exElf`. -/
def exElfImg : image :=
  { arch := "i386", entry := 0x8048000,
    segments := [
      { name := "01", offset := 0, addr := 0x8048000, size := 0x1000,
        is_readable := true, is_writable := false, is_executable := true },
      { name := "02", offset := 0x1000, addr := 0x8049000, size := 0x200,
        is_readable := true, is_writable := true, is_executable := false } ],
    symbols := [
      { name := "main", kind := .ST_Function, addr := 0x8048100, size := 0x40 },
      { name := "puts", kind := .ST_Function, addr := 0, size := 0 } ],
    sections := [{ name := ".text", addr := 0x8048000, size := 0x1000 }] }

/-- A Mach-O fixture with exactly one `LC_MAIN` command. -/
def exMachO : MachOFile :=
  { arch := "x86_64",
    cmds := [
      .LC_SEGMENT_64 { segname := "__TEXT", fileoff := 0, vmaddr := 0x100000000,
                       filesize := 0x1000, initprot := 5 },
      .LC_MAIN 0x4f60,
      .LC_OTHER 0x2 ],
    sections := [{ name := "__text", addr := 0x100000f60, size := 0xa0 }],
    symbols := [{ name := "_main", kind := .ST_Function, addr := 0x100000f60, size := 0xa0 }] }

/-- The same Mach-O fixture with the `LC_MAIN` command removed. -/
def exMachONoMain : MachOFile :=
  { exMachO with cmds := [
      .LC_SEGMENT_64 { segname := "__TEXT", fileoff := 0, vmaddr := 0x100000000,
                       filesize := 0x1000, initprot := 5 },
      .LC_OTHER 0x2 ] }

/-- A PE32 fixture with one code section and one debug-only section. -/
def exPE : COFFFile :=
  { arch := "i386", is64 := false,
    hdr := some { ImageBase := 0x400000, AddressOfEntryPoint := 0x1234 },
    sections := [
      { Name := ".text", VirtualAddress := 0x1000, SizeOfRawData := 0x200,
        PointerToRawData := 0x400, Characteristics := 0x60000020 },
      { Name := ".debug", VirtualAddress := 0x2000, SizeOfRawData := 0x100,
        PointerToRawData := 0x600, Characteristics := 0x42000000 } ],
    symbols := [] }

/-- The image `coff_create` builds from `exPE`. -/
def exPEImg : image :=
  { arch := "i386", entry := 0x1234,
    segments := [
      { name := ".text", offset := 0x400, addr := 0x401000, size := 0x200,
        is_readable := true, is_writable := false, is_executable := true } ],
    symbols := [],
    sections := [
      { name := ".text", addr := 0x1000, size := 0x200 },
      { name := ".debug", addr := 0x2000, size := 0x100 } ] }

/-- A PE32 fixture on which `VirtualAddress + ImageBase` overflows 32
bits. -/
def exPE32wrap : COFFFile :=
  { arch := "i386", is64 := false,
    hdr := some { ImageBase := 0x80000000, AddressOfEntryPoint := 0x1000 },
    sections := [
      { Name := "text", VirtualAddress := 0x80000000, SizeOfRawData := 0x200,
        PointerToRawData := 0x400, Characteristics := 0x60000020 } ],
    symbols := [] }

/-- The image `coff_create` builds from `exPE32wrap`: the one
segment's virtual address has wrapped to 0. -/
def exPE32wrapImg : image :=
  { arch := "i386", entry := 0x1000,
    segments := [
      { name := "text", offset := 0x400, addr := 0, size := 0x200,
        is_readable := true, is_writable := false, is_executable := true } ],
    symbols := [],
    sections := [{ name := "text", addr := 0x80000000, size := 0x200 }] }

/-- A COFF fixture whose one section starts at a nonzero
`VirtualAddress` (0x1000) and ends at relative address 0x1030; its one
symbol sits at `Value` 0x20, i.e. at address 0x1020 under image base
0. -/
def exC5a : COFFFile :=
  { arch := "i386", is64 := false,
    hdr := some { ImageBase := 0, AddressOfEntryPoint := 0 },
    sections := [
      { Name := "text", VirtualAddress := 0x1000, SizeOfRawData := 0x30,
        PointerToRawData := 0x200, Characteristics := 0x60000020 } ],
    symbols := [{ name := "a", kind := .ST_Function, SectionNumber := 1, Value := 0x20 }] }

/-- A COFF fixture whose section spans [0, 0x30) and whose second
symbol lies past the section end. -/
def exC5b : COFFFile :=
  { arch := "i386", is64 := false,
    hdr := some { ImageBase := 0, AddressOfEntryPoint := 0 },
    sections := [
      { Name := "text", VirtualAddress := 0, SizeOfRawData := 0x30,
        PointerToRawData := 0x200, Characteristics := 0x60000020 } ],
    symbols := [
      { name := "a", kind := .ST_Function, SectionNumber := 1, Value := 0x20 },
      { name := "b", kind := .ST_Function, SectionNumber := 1, Value := 0x50 }] }

/-! ## Claims -/

/-- C1: every input buffer that `createBinary` recognized as an
archive makes `img::create` fail with `FeatureUnsupported`
("Archive loading unimplemented"); it never returns an image, not
even an empty one. -/
theorem archive_always_feature_unsupported (data : List Nat) :
    create (.archive data) = .error (.FeatureUnsupported "Archive loading unimplemented")
    ∧ ∀ img : image, create (.archive data) ≠ .ok img :=
  ⟨rfl, fun _ h => Except.noConfusion h⟩

/-- C2: for a Mach-O input whose load-command list holds exactly one
`LC_MAIN`, the image is built and its entry point is that command's
`entryoff`; with no `LC_MAIN` present the decode fails with
`FormatError` instead of producing an entry of zero. -/
theorem macho_entry_unique_lc_main (f : MachOFile) :
    (∀ entryoff, f.cmds.filterMap getMain = [entryoff] →
      macho_create f = .ok { arch := f.arch, entry := entryoff,
                             segments := macho_seg_read f.cmds,
                             symbols := f.symbols.map make_symbol,
                             sections := sec_read f.sections })
    ∧ (f.cmds.filterMap getMain = [] →
      macho_create f = .error (.FormatError "LC_MAIN not found, binary version < 10.8")) := by
  constructor
  · intro entryoff h
    have hf : find_lc_main f.cmds = some entryoff := by
      rw [find_lc_main_eq_head?_filterMap, h]; rfl
    simp [macho_create, macho_image_entry, hf]
  · intro h
    have hf : find_lc_main f.cmds = none := by
      rw [find_lc_main_eq_head?_filterMap, h]; rfl
    simp [macho_create, macho_image_entry, hf]

/-- Witness for C2: on `exMachO` the unique `LC_MAIN` carries 0x4f60
and the built image's entry is 0x4f60; on `exMachONoMain` the decode
fails with `FormatError`. -/
theorem macho_entry_unique_lc_main_witness :
    macho_create exMachO = .ok { arch := exMachO.arch, entry := 0x4f60,
                                 segments := macho_seg_read exMachO.cmds,
                                 symbols := exMachO.symbols.map make_symbol,
                                 sections := sec_read exMachO.sections }
    ∧ macho_create exMachONoMain =
        .error (.FormatError "LC_MAIN not found, binary version < 10.8") :=
  ⟨(macho_entry_unique_lc_main exMachO).1 0x4f60 rfl,
   (macho_entry_unique_lc_main exMachONoMain).2 rfl⟩

/-- C3: in an ELF image the segments are exactly the loadable
(`PT_LOAD`) program headers in table order, each named with the
zero-padded two-digit decimal of its position in the full table, with
offset, virtual address and size verbatim from the header and the
three protection booleans decoded independently from the permission
bits. -/
theorem elf_segments_loadable_spec (f : ELFFile) (img : image)
    (h : elf_create f = .ok img) :
    img.segments = elfSegSpec f.phdrs := by
  rw [elf_create_ok f img h]
  exact elf_seg_read_eq_spec f

/-- Witness for C3 at the `exElf` fixture. -/
theorem elf_segments_loadable_spec_witness :
    exElfImg.segments = elfSegSpec exElf.phdrs :=
  elf_segments_loadable_spec exElf exElfImg (by rfl)

/-- C7: an ELF image's symbol sequence is the static symbol table
followed by the dynamic symbol table, and every symbol's size is the
record's explicit size field, unchanged. -/
theorem elf_symbols_concat_static_dynamic (f : ELFFile) (img : image)
    (h : elf_create f = .ok img) :
    img.symbols = f.static_syms.map make_symbol ++ f.dynamic_syms.map make_symbol
    ∧ img.symbols.map symbol.size = (f.static_syms ++ f.dynamic_syms).map SymbolRef.size := by
  rw [elf_create_ok f img h]
  refine ⟨rfl, ?_⟩
  have hcomp : (symbol.size ∘ make_symbol) = SymbolRef.size := funext fun r => rfl
  simp [elf_sym_read, hcomp]

/-- Witness for C7 at the `exElf` fixture. -/
theorem elf_symbols_concat_static_dynamic_witness :
    exElfImg.symbols = exElf.static_syms.map make_symbol ++ exElf.dynamic_syms.map make_symbol
    ∧ exElfImg.symbols.map symbol.size =
        (exElf.static_syms ++ exElf.dynamic_syms).map SymbolRef.size :=
  elf_symbols_concat_static_dynamic exElf exElfImg (by rfl)

/-- C9: decoding the same input twice yields structurally equal
images: same arch, entry, and identical segment, section and symbol
sequences. -/
theorem decode_idempotent (b : Binary) (i1 i2 : image)
    (h1 : create b = .ok i1) (h2 : create b = .ok i2) :
    i1.arch = i2.arch ∧ i1.entry = i2.entry ∧ i1.segments = i2.segments ∧
    i1.sections = i2.sections ∧ i1.symbols = i2.symbols := by
  have h : i1 = i2 := Except.ok.inj (h1.symm.trans h2)
  subst h
  exact ⟨rfl, rfl, rfl, rfl, rfl⟩

/-- Witness for C9: two decodes of the `exElf` fixture agree on every
component. -/
theorem decode_idempotent_witness :
    exElfImg.arch = exElfImg.arch ∧ exElfImg.entry = exElfImg.entry ∧
    exElfImg.segments = exElfImg.segments ∧ exElfImg.sections = exElfImg.sections ∧
    exElfImg.symbols = exElfImg.symbols :=
  decode_idempotent (.elf32le exElf) exElfImg exElfImg (by rfl) (by rfl)

/-- C4 counterexample: on the PE32 input `exPE32wrap` the one emitted
segment's virtual address is 0, because `VirtualAddress + ImageBase`
(0x80000000 + 0x80000000) is computed in 32-bit arithmetic; the
claimed value, the plain sum, is 2^32, so the claim as stated fails
at this input. -/
theorem coff_vaddr_wrap_cex :
    create (.coff exPE32wrap) = .ok exPE32wrapImg
    ∧ exPE32wrapImg.segments.map segment.addr = [0]
    ∧ (0 : Nat) ≠ 0x80000000 + 0x80000000 :=
  ⟨rfl, rfl, by norm_num⟩

/-- C4 (amended): in a PE/COFF image a section yields a segment if
and only if its characteristics include code, initialized data or
uninitialized data; that segment carries the section's raw pointer
and raw size verbatim and a virtual address equal to
(relative virtual address + image base) reduced modulo 2^32 for PE32
(modulo 2^64 for PE32+), with the three protection booleans decoded
independently from the memory characteristic bits; every section,
content-bearing or not, appears in the section collection. -/
theorem coff_segments_content_spec (f : COFFFile) (h : pe_header) (img : image)
    (hwf : coff_wf f) (hh : f.hdr = some h) (hc : coff_create f = .ok img) :
    img.segments =
      (f.sections.filter coff_content_bits).map (coffSegOf (addr_width f.is64) h.ImageBase)
    ∧ img.sections.map Section.name = f.sections.map coff_section.Name := by
  obtain ⟨syms, hsym, rfl⟩ := coff_create_ok f h img hh hc
  constructor
  · exact readPE_eq_spec (addr_width f.is64) h.ImageBase
      (by cases f.is64 <;> norm_num [addr_width]) f.sections
      (fun s hs => ⟨(hwf s hs).2.2.1, (hwf s hs).2.1, (hwf s hs).2.2.2⟩)
  · simp [coff_sec_read, sec_read, make_section, coffSectionRef, Function.comp]

/-- Witness for the amended C4 at the `exPE` fixture: the code
section yields the one segment, the debug-only section yields none
but still appears among the sections. -/
theorem coff_segments_content_spec_witness :
    exPEImg.segments =
      (exPE.sections.filter coff_content_bits).map
        (coffSegOf (addr_width exPE.is64) 0x400000)
    ∧ exPEImg.sections.map Section.name = exPE.sections.map coff_section.Name :=
  coff_segments_content_spec exPE { ImageBase := 0x400000, AddressOfEntryPoint := 0x1234 }
    exPEImg (by unfold coff_wf; decide) rfl (by rfl)

/-- C5 counterexample.  First input (`exC5a`): the only symbol of its
section sits at address 0x1020 in a section ending at address 0x1030,
so the claimed inferred size is 0x10, but the code reports 0x1010
(the section's nonzero `VirtualAddress` leaks into the fallback).
Second input (`exC5b`): symbol `a` at address 0x20 has a next symbol
at the strictly greater address 0x50 in the same section, so the
claimed size is 0x30, but the code reports 0x10 (the section-end
fallback caps the gap). -/
theorem coff_sym_size_cex :
    (coff_sym_read exC5a =
        .ok [{ name := "a", kind := .ST_Function, addr := 0x1020, size := 0x1010 }]
      ∧ (0x1010 : Nat) ≠ 0x1030 - 0x1020)
    ∧ (coff_sym_read exC5b =
        .ok [{ name := "a", kind := .ST_Function, addr := 0x20, size := 0x10 },
             { name := "b", kind := .ST_Function, addr := 0x50, size := 0xFFFFFFE0 }]
      ∧ (0x10 : Nat) ≠ 0x50 - 0x20) :=
  ⟨⟨by rfl, by norm_num⟩, ⟨by rfl, by norm_num⟩⟩

/-- C5 (amended): for every COFF symbol whose containing section
resolves, the inferred size is the minimum of the distances to the
same-section symbols at strictly greater `Value` and of the fallback
`(VirtualAddress + SizeOfRawData) - Value` computed in 32-bit
arithmetic — the fallback exceeds the distance from the symbol's
address to its section's end by the section's `VirtualAddress`; the
symbol's address is section `VirtualAddress` + image base + `Value`. -/
theorem coff_sym_inferred_size_spec (f : COFFFile) :
    coff_sym_read f = coffSymSpecRead f := by
  unfold coff_sym_read coffSymSpecRead
  cases hh : f.hdr with
  | none => rfl
  | some h => exact coff_sym_read_aux_eq_spec f.symbols f.sections h.ImageBase f.symbols

/-- C6: a PE/COFF image's entry point is the optional header's
`AddressOfEntryPoint` field, with the image base not added. -/
theorem coff_entry_field_no_base (f : COFFFile) (h : pe_header) (img : image)
    (hh : f.hdr = some h) (hc : coff_create f = .ok img) :
    img.entry = h.AddressOfEntryPoint := by
  obtain ⟨syms, hsym, rfl⟩ := coff_create_ok f h img hh hc
  rfl

/-- Witness for C6 at the `exPE` fixture: the entry is 0x1234, not
0x1234 + 0x400000. -/
theorem coff_entry_field_no_base_witness :
    exPEImg.entry = 0x1234 ∧ exPEImg.entry ≠ 0x1234 + 0x400000 :=
  ⟨coff_entry_field_no_base exPE { ImageBase := 0x400000, AddressOfEntryPoint := 0x1234 }
      exPEImg rfl (by rfl),
   by norm_num [exPEImg]⟩

/-- C10: a COFF symbol whose section number marks it
undefined/external contributes no entry at all to the symbol
sequence: deleting all such records from the symbol table leaves the
output of the symbol reader unchanged. -/
theorem coff_undefined_symbols_omitted (f : COFFFile) :
    coff_sym_read f =
      coff_sym_read
        { f with symbols := f.symbols.filter (fun s => s.SectionNumber != IMAGE_SYM_UNDEFINED) } := by
  unfold coff_sym_read
  cases hh : f.hdr with
  | none => rfl
  | some h =>
    exact (coff_sym_read_aux_filter f.symbols f.sections h.ImageBase f.symbols).symm

/-- C8: decoding stores every segment, section and symbol address and
size as an unsigned 64-bit quantity obtained by widening the source
field: on a 32-bit ELF input every emitted offset/address/size equals
its source header field verbatim and fits in 64 bits, and the COFF
segment constructor at the 32-bit width preserves the 32-bit raw
pointer and raw size fields exactly, with every produced field below
2^64. -/
theorem u64_fields_widen_without_truncation (f : ELFFile) (img : image)
    (hwf : elf_wf32 f) (hc : elf_create f = .ok img) :
    (∀ g ∈ img.segments, ∃ p ∈ f.phdrs,
      g.offset = p.p_offset ∧ g.addr = p.p_vaddr ∧ g.size = p.p_filesz ∧
      g.offset < 2 ^ 64 ∧ g.addr < 2 ^ 64 ∧ g.size < 2 ^ 64) ∧
    (∀ c ∈ img.sections, ∃ s ∈ f.sections,
      c.addr = s.addr ∧ c.size = s.size ∧ c.addr < 2 ^ 64 ∧ c.size < 2 ^ 64) ∧
    (∀ y ∈ img.symbols, ∃ r ∈ f.static_syms ++ f.dynamic_syms,
      y.addr = r.addr ∧ y.size = r.size ∧ y.addr < 2 ^ 64 ∧ y.size < 2 ^ 64) ∧
    (∀ (base : Nat) (s : coff_section),
      base < 2 ^ 32 → s.PointerToRawData < 2 ^ 32 → s.SizeOfRawData < 2 ^ 32 →
      (make_segment_coff 32 base s).offset = s.PointerToRawData ∧
      (make_segment_coff 32 base s).size = s.SizeOfRawData ∧
      (make_segment_coff 32 base s).offset < 2 ^ 64 ∧
      (make_segment_coff 32 base s).addr < 2 ^ 64 ∧
      (make_segment_coff 32 base s).size < 2 ^ 64) := by
  obtain ⟨hph, hsc, hsy⟩ := hwf
  have h32_64 : (2 : Nat) ^ 32 ≤ 2 ^ 64 := by norm_num
  rw [elf_create_ok f img hc]
  refine ⟨?_, ?_, ?_, ?_⟩
  · intro g hg
    obtain ⟨p, hp, ho, ha, hs⟩ := elf_seg_read_aux_mem g 0 f.phdrs hg
    obtain ⟨b1, b2, b3⟩ := hph p hp
    exact ⟨p, hp, ho, ha, hs,
      by rw [ho]; exact lt_of_lt_of_le b1 h32_64,
      by rw [ha]; exact lt_of_lt_of_le b2 h32_64,
      by rw [hs]; exact lt_of_lt_of_le b3 h32_64⟩
  · intro c hc2
    obtain ⟨s, hs, rfl⟩ :=
      List.mem_map.mp (show c ∈ f.sections.map make_section from hc2)
    obtain ⟨b1, b2⟩ := hsc s hs
    exact ⟨s, hs, rfl, rfl, lt_of_lt_of_le b1 h32_64, lt_of_lt_of_le b2 h32_64⟩
  · intro y hy
    have hy2 : y ∈ (f.static_syms ++ f.dynamic_syms).map make_symbol := by
      simpa [elf_sym_read, List.map_append] using hy
    obtain ⟨r, hr, rfl⟩ := List.mem_map.mp hy2
    obtain ⟨b1, b2⟩ := hsy r hr
    exact ⟨r, hr, rfl, rfl, lt_of_lt_of_le b1 h32_64, lt_of_lt_of_le b2 h32_64⟩
  · intro base s hb hP hS
    simp only [make_segment_coff]
    exact ⟨Nat.mod_eq_of_lt hP, Nat.mod_eq_of_lt hS,
      lt_of_lt_of_le (Nat.mod_lt _ (by norm_num)) h32_64,
      lt_of_lt_of_le (Nat.mod_lt _ (by norm_num)) h32_64,
      lt_of_lt_of_le (Nat.mod_lt _ (by norm_num)) h32_64⟩

/-- Witness for C8: the theorem applies to the 32-bit `exElf` fixture
(its well-formedness bounds hold and `elf_create` succeeds on it),
and its COFF conjunct instantiated at the `.text` section of `exPE`
under image base 0x400000 gives the raw pointer and raw size back
unchanged. -/
theorem u64_fields_widen_without_truncation_witness :
    (make_segment_coff 32 0x400000
        { Name := ".text", VirtualAddress := 0x1000, SizeOfRawData := 0x200,
          PointerToRawData := 0x400, Characteristics := 0x60000020 }).offset = 0x400
    ∧ (make_segment_coff 32 0x400000
        { Name := ".text", VirtualAddress := 0x1000, SizeOfRawData := 0x200,
          PointerToRawData := 0x400, Characteristics := 0x60000020 }).size = 0x200 :=
  have h := (u64_fields_widen_without_truncation exElf exElfImg
      (by unfold elf_wf32; decide) (by rfl)).2.2.2 0x400000
    { Name := ".text", VirtualAddress := 0x1000, SizeOfRawData := 0x200,
      PointerToRawData := 0x400, Characteristics := 0x60000020 }
    (by norm_num) (by norm_num) (by norm_num)
  ⟨h.1, h.2.1⟩

end llvm_binary
